import Mathlib

/-!
Verification of the application-identity mapper of `homebridge-roku-tv`
(`src/roku-app-map.ts`), together with the pieces of the platform and
accessory layers that feed it (`src/roku-homebridge-platform.ts`,
`src/roku-homebridge-accessory.ts`).

JavaScript strings are modelled as lists of UTF-16 code units
(`s.split("")` splits into code units and `charCodeAt(0)` reads the unit),
and JavaScript's 32-bit wrapping operators (`<<`, `&`) are modelled with an
explicit `toInt32` wrap on `Int`.
-/

set_option maxRecDepth 100000

namespace RokuTV

/-- A JavaScript string, as the list of its UTF-16 code units
(`"Aa".split("")` yields the units `[65, 97]`). -/
abbrev Str := List Nat

/-- A raw application record as reported by the Roku device
(the `RokuApp` interface of `roku-client`): fields `id`, `name`,
`type`, `version`, all strings. -/
structure RokuApp where
  id : Str
  name : Str
  type : Str
  version : Str
deriving DecidableEq, Repr

/-- A mapped application (`MappedApp` in `src/roku-app-map.ts`):
numeric `id`, the original raw id as `rokuAppId`, and the copied-through
`name`, `type`, `version`. -/
structure MappedApp where
  id : Int
  rokuAppId : Str
  name : Str
  type : Str
  version : Str
deriving DecidableEq, Repr

/-- JavaScript `ToInt32`: wrap an integer into the signed 32-bit range
`[-2^31, 2^31)`.  This is what `a & a` and the result of `<<` perform. -/
def toInt32 (n : Int) : Int := (n + 2 ^ 31) % 2 ^ 32 - 2 ^ 31

/-- One step of the reduce in `hashCode`
(`a = (a << 5) - a + b.charCodeAt(0); return a & a;`):
`a << 5` is `ToInt32 (ToInt32 a * 32)`, the subtraction and addition are
exact double arithmetic, and `a & a` is `ToInt32` of the result. -/
def hashStep (a : Int) (c : Nat) : Int :=
  toInt32 (toInt32 (toInt32 a * 32) - a + (c : Int))

/-- `hashCode` from `src/roku-app-map.ts`:
`s.split("").reduce((a, b) => { a = (a << 5) - a + b.charCodeAt(0); return a & a; }, 0)`. -/
def hashCode (s : Str) : Int := s.foldl hashStep 0

/-- `createMappedApps` from `src/roku-app-map.ts`:
`apps.map((a) => ({ ...a, rokuAppId: a.id, id: hashCode(a.id) }))`. -/
def createMappedApps (apps : List RokuApp) : List MappedApp :=
  apps.map (fun a =>
    { id := hashCode a.id, rokuAppId := a.id,
      name := a.name, type := a.type, version := a.version })

/-- `asMappedApp` from `src/roku-app-map.ts`: `createMappedApps([app])[0]`. -/
def asMappedApp (app : RokuApp) : MappedApp :=
  (createMappedApps [app]).head (by simp [createMappedApps])

/-- The `RokuAppMap` class state: the constructor argument `apps` and the
field `mappedApps` it computes. -/
structure RokuAppMap where
  apps : List RokuApp
  mappedApps : List MappedApp
deriving DecidableEq, Repr

/-- The `RokuAppMap` constructor: `this.mappedApps = createMappedApps(apps)`. -/
def RokuAppMap.ofApps (apps : List RokuApp) : RokuAppMap :=
  { apps := apps, mappedApps := createMappedApps apps }

/-- `RokuAppMap.getAppFromRokuId`:
`this.mappedApps.find((x) => x.rokuAppId === identifier)`; the result is an
`Option` because `Array.prototype.find` yields `undefined` on no match. -/
def RokuAppMap.getAppFromRokuId (m : RokuAppMap) (identifier : Str) :
    Option MappedApp :=
  m.mappedApps.find? (fun x => x.rokuAppId == identifier)

/-- `RokuAppMap.getAppFromId`:
`this.mappedApps.find((x) => x.id === identifier)`. -/
def RokuAppMap.getAppFromId (m : RokuAppMap) (identifier : Int) :
    Option MappedApp :=
  m.mappedApps.find? (fun x => x.id == identifier)

/-- `RokuAppMap.getApps`: `return this.mappedApps`. -/
def RokuAppMap.getApps (m : RokuAppMap) : List MappedApp :=
  m.mappedApps

/-- Modelled from the spec: the reserved sentinel raw identifier
`homeScreenActiveId` is exported by `src/settings.ts`, which is not among
the given source files; the spec's worked example uses the raw id
`"home.id"` for the synthesized home entry, i.e. code units
`[104, 111, 109, 101, 46, 105, 100]`. -/
def homeScreenActiveId : Str := [104, 111, 109, 101, 46, 105, 100]

/-- The code units of `"Home"`. -/
def strHome : Str := [72, 111, 109, 101]

/-- The code units of `"1"`. -/
def strOne : Str := [49]

/-- The synthesized home-screen record that
`RokuHomebridgePlatform.createClientInfoFromClient` pushes:
`{ name: "Home", type: "Home", id: homeScreenActiveId, version: "1" }`. -/
def homeApp : RokuApp :=
  { id := homeScreenActiveId, name := strHome, type := strHome, version := strOne }

/-- The application list of a device session, as assembled by
`createClientInfoFromClient`: the fetched `apps` with the home entry
appended (`apps.push({...})`). -/
def sessionApps (apps : List RokuApp) : List RokuApp :=
  apps ++ [homeApp]

/-- The input-source list the accessory layer derives in
`configureTelevisionApplicationInputs`:
`this.applicationMap.getApps().filter((x) => !this.excludedApps.includes(x.name))`. -/
def filteredApps (m : RokuAppMap) (excludedApps : List Str) : List MappedApp :=
  m.getApps.filter (fun x => !(excludedApps.contains x.name))

/-- The observable operations of a built `RokuAppMap`. -/
inductive MapOp where
  | fromRokuId (identifier : Str)
  | fromId (identifier : Int)
  | listAll
deriving DecidableEq, Repr

/-- The result of one `RokuAppMap` operation. -/
inductive MapResult where
  | app (a : Option MappedApp)
  | list (l : List MappedApp)
deriving DecidableEq, Repr

/-- One method call on a `RokuAppMap`, as a state transformer.  None of the
method bodies assigns to `this.mappedApps` or `this.apps` (both are
`readonly`, and `find` and returning the array reference do not write), so
each call returns its result together with the unchanged object state. -/
def RokuAppMap.run (m : RokuAppMap) : MapOp → MapResult × RokuAppMap
  | .fromRokuId s => (.app (m.getAppFromRokuId s), m)
  | .fromId i => (.app (m.getAppFromId i), m)
  | .listAll => (.list m.getApps, m)

/-- The object state after a sequence of method calls. -/
def RokuAppMap.runAll (m : RokuAppMap) (ops : List MapOp) : RokuAppMap :=
  ops.foldl (fun s op => (s.run op).2) m

/-- The raw record of the spec's worked example:
`{id: "12", name: "Netflix", type: "appl", version: "1"}`. -/
def netflixApp : RokuApp :=
  { id := [49, 50], name := [78, 101, 116, 102, 108, 105, 120],
    type := [97, 112, 112, 108], version := strOne }

/-- A raw record with id `"Aa"`. -/
def appAa : RokuApp :=
  { id := [65, 97], name := [65, 97], type := [97, 112, 112, 108], version := strOne }

/-- A raw record with id `"BB"`; `hashCode "BB" = hashCode "Aa" = 2112`. -/
def appBB : RokuApp :=
  { id := [66, 66], name := [66, 66], type := [97, 112, 112, 108], version := strOne }

/-! ## Helper lemmas -/

theorem toInt32_range (n : Int) : -2 ^ 31 ≤ toInt32 n ∧ toInt32 n < 2 ^ 31 := by
  have h1 : 0 ≤ (n + 2 ^ 31) % 2 ^ 32 := Int.emod_nonneg _ (by norm_num)
  have h2 : (n + 2 ^ 31) % 2 ^ 32 < 2 ^ 32 := Int.emod_lt_of_pos _ (by norm_num)
  unfold toInt32
  omega

theorem foldl_hashStep_range (s : Str) (a : Int)
    (h : -2 ^ 31 ≤ a ∧ a < 2 ^ 31) :
    -2 ^ 31 ≤ s.foldl hashStep a ∧ s.foldl hashStep a < 2 ^ 31 := by
  induction s generalizing a with
  | nil => exact h
  | cons c cs ih =>
    have : hashStep a c = toInt32 (toInt32 (toInt32 a * 32) - a + (c : Int)) := rfl
    exact ih _ (this ▸ toInt32_range _)

theorem find?_append_of_first {α : Type} (p : α → Bool) (pre post : List α) (a : α)
    (hpa : p a = true) (hpre : ∀ x ∈ pre, p x = false) :
    (pre ++ a :: post).find? p = some a := by
  induction pre with
  | nil => exact List.find?_cons_of_pos _ hpa
  | cons y ys ih =>
    have hy : ¬ p y = true := by
      simp [hpre y (List.mem_cons_self y ys)]
    rw [List.cons_append, List.find?_cons_of_neg _ hy]
    exact ih fun x hx => hpre x (List.mem_cons_of_mem _ hx)

theorem find?_eq_of_pairwise_key {α β : Type} [BEq β] [LawfulBEq β] (f : α → β)
    (l : List α) (hp : l.Pairwise (fun x y => f x ≠ f y)) (m : α) (hm : m ∈ l) :
    l.find? (fun x => f x == f m) = some m := by
  induction l with
  | nil => cases hm
  | cons y ys ih =>
    rcases List.mem_cons.mp hm with rfl | hm'
    · exact List.find?_cons_of_pos _ (by simp)
    · have hy : f y ≠ f m := (List.pairwise_cons.mp hp).1 m hm'
      rw [List.find?_cons_of_neg _ (by simp [hy])]
      exact ih (List.pairwise_cons.mp hp).2 hm'

theorem asMappedApp_eq (a : RokuApp) :
    asMappedApp a = { id := hashCode a.id, rokuAppId := a.id,
                      name := a.name, type := a.type, version := a.version } := rfl

theorem createMappedApps_eq_map (apps : List RokuApp) :
    createMappedApps apps = apps.map asMappedApp := by
  simp only [createMappedApps]
  exact List.map_congr_left fun a _ => (asMappedApp_eq a).symm

theorem id_of_mem_createMappedApps (apps : List RokuApp) (m : MappedApp)
    (hm : m ∈ createMappedApps apps) : m.id = hashCode m.rokuAppId := by
  simp only [createMappedApps, List.mem_map] at hm
  obtain ⟨a, _, rfl⟩ := hm
  rfl

/-! ## Claim theorems -/

/-- C1 (corrected): the round-trip property fails as stated, because
`hashCode` is not injective and `find` returns the first match.  With the
raw list `[appAa, appBB]` (`hashCode "Aa" = hashCode "BB" = 2112`), the
mapped entry for `"BB"` is in the index, but `getAppFromId` on its numeric
id returns the entry for `"Aa"` instead. -/
theorem roundtrip_counterexample :
    asMappedApp appBB ∈ createMappedApps [appAa, appBB] ∧
    ¬ (RokuAppMap.ofApps [appAa, appBB]).getAppFromId (asMappedApp appBB).id
        = some (asMappedApp appBB) := by
  constructor
  · decide
  · decide

/-- C1 (amended): if the numeric ids of the built index are pairwise
distinct (no `hashCode` collision among the raw ids), then every mapped
application `m` of `createMappedApps apps` is recovered by both lookups:
`getAppFromId m.id = some m` and `getAppFromRokuId m.rokuAppId = some m`. -/
theorem roundtrip_of_distinct_ids (apps : List RokuApp)
    (hids : (createMappedApps apps).Pairwise (fun x y => x.id ≠ y.id))
    (m : MappedApp) (hm : m ∈ createMappedApps apps) :
    (RokuAppMap.ofApps apps).getAppFromId m.id = some m ∧
    (RokuAppMap.ofApps apps).getAppFromRokuId m.rokuAppId = some m := by
  have hraw : (createMappedApps apps).Pairwise
      (fun x y => x.rokuAppId ≠ y.rokuAppId) := by
    refine List.Pairwise.imp_of_mem ?_ hids
    intro x y hx hy hne heq
    exact hne (by
      rw [id_of_mem_createMappedApps apps x hx,
        id_of_mem_createMappedApps apps y hy, heq])
  constructor
  · show (createMappedApps apps).find? (fun x => x.id == m.id) = some m
    exact find?_eq_of_pairwise_key MappedApp.id _ hids m hm
  · show (createMappedApps apps).find? (fun x => x.rokuAppId == m.rokuAppId)
        = some m
    exact find?_eq_of_pairwise_key MappedApp.rokuAppId _ hraw m hm

/-- C1 witness: the spec's example list (Netflix plus the home entry) has
collision-free numeric ids, and both lookups recover its first entry. -/
theorem roundtrip_of_distinct_ids_witness :
    (createMappedApps (sessionApps [netflixApp])).Pairwise
      (fun x y => x.id ≠ y.id) ∧
    asMappedApp netflixApp ∈ createMappedApps (sessionApps [netflixApp]) ∧
    ((RokuAppMap.ofApps (sessionApps [netflixApp])).getAppFromId
        (asMappedApp netflixApp).id = some (asMappedApp netflixApp) ∧
      (RokuAppMap.ofApps (sessionApps [netflixApp])).getAppFromRokuId
        (asMappedApp netflixApp).rokuAppId = some (asMappedApp netflixApp)) :=
  ⟨by decide, by decide,
    roundtrip_of_distinct_ids (sessionApps [netflixApp]) (by decide)
      (asMappedApp netflixApp) (by decide)⟩

/-- C2: after the platform appends the synthesized home entry (with raw id
`homeScreenActiveId`) to the fetched list and builds the `RokuAppMap`,
`getAppFromRokuId homeScreenActiveId` succeeds for every raw list,
including the empty one. -/
theorem home_lookup_always_succeeds (apps : List RokuApp) :
    ((RokuAppMap.ofApps (sessionApps apps)).getAppFromRokuId
      homeScreenActiveId).isSome = true := by
  rw [RokuAppMap.getAppFromRokuId, List.find?_isSome]
  refine ⟨asMappedApp homeApp, ?_, by decide⟩
  rw [RokuAppMap.ofApps, createMappedApps_eq_map]
  exact List.mem_map_of_mem _ (by simp [sessionApps])

/-- C3: `hashCode` is a pure, total, deterministic function of the code
units of its input: equal inputs give equal outputs. -/
theorem hashCode_deterministic (s t : Str) (h : s = t) :
    hashCode s = hashCode t := by rw [h]

/-- C3 witness: determinism at the concrete input `"Home"`. -/
theorem hashCode_deterministic_witness :
    strHome = strHome ∧ hashCode strHome = hashCode strHome :=
  ⟨rfl, hashCode_deterministic strHome strHome rfl⟩

/-- C4: for every string, `hashCode` lands in the signed 32-bit range
`[-2^31, 2^31 - 1]`: each step ends in the `ToInt32` wrap of `a & a`. -/
theorem hashCode_int32_range (s : Str) :
    -2 ^ 31 ≤ hashCode s ∧ hashCode s ≤ 2 ^ 31 - 1 := by
  have h := foldl_hashStep_range s 0 (by norm_num)
  simp only [hashCode]
  exact ⟨h.1, by omega⟩

/-- C5: over the session list (`n` raw records plus the appended home
entry), `createMappedApps` yields exactly `n + 1` mapped applications, the
`i`-th of which is the mapping of the `i`-th input record: one output per
input, order preserved, nothing deduplicated or dropped. -/
theorem buildIndex_complete (apps : List RokuApp) :
    (createMappedApps (sessionApps apps)).length = apps.length + 1 ∧
    ∀ i : Nat, (createMappedApps (sessionApps apps))[i]? =
      ((sessionApps apps)[i]?).map asMappedApp := by
  constructor
  · simp [createMappedApps, sessionApps]
  · intro i
    rw [createMappedApps_eq_map]
    exact List.getElem?_map asMappedApp (sessionApps apps) i

/-- C6: a numeric id and a raw id that no entry of the built index carries
are both answered with `none` (JavaScript `undefined` from
`Array.prototype.find`); no hashing step can fail, `hashCode` being a total
function on strings. -/
theorem lookup_not_found (apps : List RokuApp) (nid : Int) (sid : Str)
    (h : ∀ m ∈ createMappedApps apps, m.id ≠ nid ∧ m.rokuAppId ≠ sid) :
    (RokuAppMap.ofApps apps).getAppFromId nid = none ∧
    (RokuAppMap.ofApps apps).getAppFromRokuId sid = none := by
  constructor
  · exact List.find?_eq_none.mpr fun x hx => by simp [(h x hx).1]
  · exact List.find?_eq_none.mpr fun x hx => by simp [(h x hx).2]

/-- C6 witness: on the index of the spec's example session, the numeric id
`0` and the raw id `"x"` are absent and both lookups return `none`. -/
theorem lookup_not_found_witness :
    (∀ m ∈ createMappedApps (sessionApps [netflixApp]),
      m.id ≠ (0 : Int) ∧ m.rokuAppId ≠ [120]) ∧
    ((RokuAppMap.ofApps (sessionApps [netflixApp])).getAppFromId 0 = none ∧
      (RokuAppMap.ofApps (sessionApps [netflixApp])).getAppFromRokuId [120]
        = none) :=
  ⟨by decide, lookup_not_found (sessionApps [netflixApp]) 0 [120] (by decide)⟩

/-- C7: the mapped application built for the `i`-th raw record `r` carries
`rokuAppId = r.id`, `id = hashCode r.id`, and `r`'s `name`, `type` and
`version` unchanged. -/
theorem mapped_fields (apps : List RokuApp) (i : Nat) (r : RokuApp)
    (h : apps[i]? = some r) :
    (createMappedApps apps)[i]? =
      some { id := hashCode r.id, rokuAppId := r.id,
             name := r.name, type := r.type, version := r.version } := by
  rw [createMappedApps_eq_map, List.getElem?_map asMappedApp apps i, h]
  rfl

/-- C7 witness: the field correspondence at the concrete record
`netflixApp` in position `0`. -/
theorem mapped_fields_witness :
    ([netflixApp][0]? = some netflixApp) ∧
    (createMappedApps [netflixApp])[0]? =
      some { id := hashCode netflixApp.id, rokuAppId := netflixApp.id,
             name := netflixApp.name, type := netflixApp.type,
             version := netflixApp.version } :=
  ⟨rfl, mapped_fields [netflixApp] 0 netflixApp rfl⟩

/-- C8: the index is immutable after construction: every sequence of
method calls (`getAppFromId`, `getAppFromRokuId`, `getApps`) leaves the
`RokuAppMap` state exactly as built, and `getApps` still returns the full
index in build order afterwards. -/
theorem index_immutable (apps : List RokuApp) (ops : List MapOp) :
    RokuAppMap.runAll (RokuAppMap.ofApps apps) ops = RokuAppMap.ofApps apps ∧
    (RokuAppMap.runAll (RokuAppMap.ofApps apps) ops).getApps
      = createMappedApps apps := by
  have hall : ∀ (l : List MapOp) (m : RokuAppMap), RokuAppMap.runAll m l = m := by
    intro l
    induction l with
    | nil => intro m; rfl
    | cons op l ih =>
      intro m
      have hstep : (m.run op).2 = m := by cases op <;> rfl
      show RokuAppMap.runAll (m.run op).2 l = m
      rw [hstep, ih]
  exact ⟨hall ops _, by rw [hall]; rfl⟩

/-- C9: filtering `getApps` by the accessory layer's exclusion predicate
(`!excludedApps.includes(x.name)`) keeps no entry whose name is excluded,
drops no entry whose name is not, and preserves build order (the result is
a sublist of `getApps`). -/
theorem exclusion_filter (E : List Str) (apps : List RokuApp) :
    (∀ x ∈ filteredApps (RokuAppMap.ofApps apps) E, x.name ∉ E) ∧
    (∀ x ∈ (RokuAppMap.ofApps apps).getApps,
      x.name ∉ E → x ∈ filteredApps (RokuAppMap.ofApps apps) E) ∧
    (filteredApps (RokuAppMap.ofApps apps) E).Sublist
      ((RokuAppMap.ofApps apps).getApps) := by
  refine ⟨?_, ?_, List.filter_sublist _⟩
  · intro x hx
    rw [filteredApps, List.mem_filter] at hx
    simpa using hx.2
  · intro x hx hname
    rw [filteredApps, List.mem_filter]
    exact ⟨hx, by simpa using hname⟩

/-- C10: both lookups return the first matching entry in build order:
if the built index splits as `pre ++ a :: post` with `a` matching the
numeric key and nothing in `pre` matching (and likewise `pre2 ++ b ::
post2` for the raw id), then `getAppFromId` returns `a` and
`getAppFromRokuId` returns `b` — first-entry-wins, not last-write-wins. -/
theorem lookup_first_entry_wins (apps : List RokuApp) (key : Int) (sid : Str)
    (pre post pre2 post2 : List MappedApp) (a b : MappedApp)
    (h1 : createMappedApps apps = pre ++ a :: post)
    (h2 : a.id = key)
    (h3 : ∀ x ∈ pre, x.id ≠ key)
    (h4 : createMappedApps apps = pre2 ++ b :: post2)
    (h5 : b.rokuAppId = sid)
    (h6 : ∀ x ∈ pre2, x.rokuAppId ≠ sid) :
    (RokuAppMap.ofApps apps).getAppFromId key = some a ∧
    (RokuAppMap.ofApps apps).getAppFromRokuId sid = some b := by
  constructor
  · show (createMappedApps apps).find? (fun x => x.id == key) = some a
    rw [h1]
    exact find?_append_of_first _ pre post a (by simp [h2])
      fun x hx => by simp [h3 x hx]
  · show (createMappedApps apps).find? (fun x => x.rokuAppId == sid) = some b
    rw [h4]
    exact find?_append_of_first _ pre2 post2 b (by simp [h5])
      fun x hx => by simp [h6 x hx]

/-- C10 witness: on the colliding list `[appAa, appBB]` with numeric key
`2112` (shared by both entries) and raw key `"BB"`, the numeric lookup
returns the first entry (`appAa`'s image) and the raw lookup returns
`appBB`'s image, which sits behind a non-matching first entry. -/
theorem lookup_first_entry_wins_witness :
    (createMappedApps [appAa, appBB]
        = [] ++ asMappedApp appAa :: [asMappedApp appBB] ∧
      (asMappedApp appAa).id = (2112 : Int) ∧
      (∀ x ∈ ([] : List MappedApp), x.id ≠ (2112 : Int)) ∧
      createMappedApps [appAa, appBB]
        = [asMappedApp appAa] ++ asMappedApp appBB :: [] ∧
      (asMappedApp appBB).rokuAppId = [66, 66] ∧
      (∀ x ∈ [asMappedApp appAa], x.rokuAppId ≠ [66, 66])) ∧
    ((RokuAppMap.ofApps [appAa, appBB]).getAppFromId 2112
        = some (asMappedApp appAa) ∧
      (RokuAppMap.ofApps [appAa, appBB]).getAppFromRokuId [66, 66]
        = some (asMappedApp appBB)) :=
  ⟨⟨by decide, by decide, by decide, by decide, by decide, by decide⟩,
    lookup_first_entry_wins [appAa, appBB] 2112 [66, 66]
      [] [asMappedApp appBB] [asMappedApp appAa] []
      (asMappedApp appAa) (asMappedApp appBB)
      (by decide) (by decide) (by decide) (by decide) (by decide) (by decide)⟩

end RokuTV
